import Mathlib

/-!
Verification of the retrieval-store subsystem of the MySample repository,
embedded shallowly from `mcp-server/mcp_server/rag_store.py`.

Modelling conventions:

* Python floats are modelled as rationals (`ℚ`).  The floating-point square
  root used by `_cosine_similarity` (`** 0.5`) is a primitive of the float
  runtime, not code of this repository, so it is passed in as an explicit
  function parameter `sqrt : ℚ → ℚ`; every theorem that needs a property of
  it states that property as a hypothesis on the concrete magnitudes.
* Raised exceptions are modelled with `Except RAGError`.  The source has a
  single exception class `RAGError(RuntimeError)` carrying only a message
  string (rag_store.py lines 19-20), mirrored here by a one-field structure.
* The embedding provider performs network I/O; in the model it is an
  explicit parameter `embed : String → List ℚ`.
* CPython's `list.sort(key=..., reverse=True)` is a stable descending sort
  (ties keep list order); it is translated as `List.mergeSort`, Lean's
  verified stable sort, with the reflected descending comparison.
* Python dicts preserve the first-insertion position of a key while letting
  a later insertion overwrite its value; the member dict of
  `CompositeRAGStore` is modelled as an association list built by a
  faithful `dictInsert`.
-/

namespace RagStore

/-- Error raised when the RAG store or embedding backend cannot fulfil a
request (`class RAGError(RuntimeError)`, rag_store.py lines 19-20).  The
source defines exactly one exception class for the whole subsystem; it
carries only the message string. -/
structure RAGError where
  msg : String
deriving DecidableEq, Repr

/-- Dimensionality-mismatch error of `_cosine_similarity`
(rag_store.py line 305). -/
def dimensionalityMismatchError : RAGError :=
  ⟨"Embedding dimensionality mismatch"⟩

/-- Unknown-store error `RAGError(f"Unknown store '{store}'")` of the
Composite operations (rag_store.py lines 258 and 276). -/
def unknownStoreError (name : String) : RAGError :=
  ⟨"Unknown store '" ++ name ++ "'"⟩

/-- Network-failure path of `OllamaEmbeddingBackend.embed` (rag_store.py
lines 52-55): `raise RAGError(str(exc))`.  The message is the text of the
external HTTP exception, which this repository's code does not constrain. -/
def ollamaNetworkError (detail : String) : RAGError :=
  ⟨detail⟩

/-- Missing-field path of `OllamaEmbeddingBackend.embed` (rag_store.py
lines 57-59). -/
def ollamaMissingEmbeddingError : RAGError :=
  ⟨"Ollama embeddings response missing 'embedding'"⟩

/-- Sum of squares, `sum(x * x for x in v)` (rag_store.py lines 307-308). -/
def sumSq (v : List ℚ) : ℚ :=
  (v.map fun x => x * x).sum

/-- Dot product, `sum(x * y for x, y in zip(a_list, b_list))`
(rag_store.py line 306).  Python `zip` stops at the shorter list, as does
`List.zip`; in the source this line is only reached for equal lengths. -/
def dotProd (a b : List ℚ) : ℚ :=
  ((a.zip b).map fun p => p.1 * p.2).sum

/-- Embeds `_cosine_similarity` (rag_store.py lines 299-311).  The branch
order is exactly the source's: the emptiness test precedes the length test,
which precedes the zero-magnitude test, which guards the division. -/
def cosineSimilarity (sqrt : ℚ → ℚ) (a b : List ℚ) : Except RAGError ℚ :=
  if a = [] ∨ b = [] then Except.ok 0
  else if a.length ≠ b.length then Except.error ⟨"Embedding dimensionality mismatch"⟩
  else
    let dot := dotProd a b
    let norm_a := sqrt (sumSq a)
    let norm_b := sqrt (sumSq b)
    if norm_a = 0 ∨ norm_b = 0 then Except.ok 0
    else Except.ok (dot / (norm_a * norm_b))

/-- Stored row of a leaf store: `rag_documents` columns `id, source,
content, embedding` for the durable variant (rag_store.py lines 112-118),
and the per-id payload mapping of the ephemeral variant (lines 193-198).
The id is kept as the string form the stores hand back. -/
structure StoredDoc where
  id : String
  source : Option String
  content : String
  embedding : List ℚ
deriving DecidableEq, Repr

/-- RAGDocument dataclass (rag_store.py lines 23-31): result row returned
by a query, in the source's field order with the source's defaults. -/
structure RAGDocument where
  id : String
  content : String
  score : ℚ
  source : Option String := none
  store : Option String := none
deriving DecidableEq, Repr

/-- Reflected comparison of `docs.sort(key=lambda item: item.score,
reverse=True)` (rag_store.py lines 167, 225, 295): descending by score.
CPython's sort is stable also under `reverse=True`. -/
def scoreDesc (x y : RAGDocument) : Bool :=
  decide (y.score ≤ x.score)

/-- Leaf store state.  Both `SQLiteRAGStore` and `InMemoryRAGStore` iterate
their rows in insertion order (rowid order of the `SELECT`, respectively
Python-dict insertion order), modelled by the list `docs`.  `nextId` models
the AUTOINCREMENT row counter of the durable variant; the ephemeral variant
draws uuid strings from the runtime, and the claims depend only on the id
string a store returns. -/
structure LeafStore where
  name : String
  nextId : Nat := 1
  docs : List StoredDoc := []
deriving DecidableEq, Repr

/-- Python `embedding or await self._embedder.embed(text)` (rag_store.py
lines 152, 209, 281): a `None` or empty (falsy) embedding argument falls
back to embedding the text. -/
def resolveVec (embed : String → List ℚ) (text : String)
    (embedding : Option (List ℚ)) : List ℚ :=
  match embedding with
  | some v => if v = [] then embed text else v
  | none => embed text

/-- Scoring loop shared by `SQLiteRAGStore.query` (rag_store.py lines
154-166) and `InMemoryRAGStore.query` (lines 212-224): one `RAGDocument`
per stored row, scored against the query vector, `store` set to the owning
store's name.  A cosine error propagates out of the loop. -/
def scoreDocs (sqrt : ℚ → ℚ) (queryVec : List ℚ) (storeName : String)
    (docs : List StoredDoc) : Except RAGError (List RAGDocument) :=
  docs.mapM fun d =>
    match cosineSimilarity sqrt queryVec d.embedding with
    | Except.error e => Except.error e
    | Except.ok score => Except.ok
        { id := d.id, content := d.content, score := score,
          source := d.source, store := some storeName }

/-- Embeds `SQLiteRAGStore.query` (rag_store.py lines 144-168) and
`InMemoryRAGStore.query` (lines 201-226), whose bodies are the same
algorithm: resolve the query vector, score every row, stable-sort
descending by score, truncate with `docs[: max(0, limit)]`. -/
def leafQuery (sqrt : ℚ → ℚ) (embed : String → List ℚ) (st : LeafStore)
    (text : String) (limit : Int) (embedding : Option (List ℚ)) :
    Except RAGError (List RAGDocument) :=
  match scoreDocs sqrt (resolveVec embed text embedding) st.name st.docs with
  | Except.error e => Except.error e
  | Except.ok docs => Except.ok ((docs.mergeSort scoreDesc).take (max 0 limit).toNat)

/-- Embeds `SQLiteRAGStore.upsert` (rag_store.py lines 123-142): embed the
content, append a row, return the new local id as a string. -/
def LeafStore.upsert (embed : String → List ℚ) (st : LeafStore)
    (source : Option String) (content : String) : LeafStore × String :=
  let v := embed content
  ({ st with
      nextId := st.nextId + 1,
      docs := st.docs ++
        [{ id := toString st.nextId, source := source, content := content, embedding := v }] },
    toString st.nextId)

/-- Requalification of one member result document by `CompositeRAGStore.query`
(rag_store.py lines 285-294): the id becomes `<member-name>:<local-id>` and
`store` is set to the member's name. -/
def requalify (memberName : String) (doc : RAGDocument) : RAGDocument :=
  { id := memberName ++ ":" ++ doc.id, content := doc.content, score := doc.score,
    source := doc.source, store := some memberName }

/-- Association-list reading of Python `dict.get` on the member dict. -/
def assocGet (m : List (String × LeafStore)) (k : String) : Option LeafStore :=
  match m with
  | [] => none
  | (k₁, v) :: rest => if k₁ = k then some v else assocGet rest k

/-- Python-dict insertion: an existing key keeps its first-insertion
position but its value is overwritten; a new key is appended. -/
def dictInsert (m : List (String × LeafStore)) (k : String) (v : LeafStore) :
    List (String × LeafStore) :=
  if m.any fun p => p.1 = k then m.map fun p => if p.1 = k then (k, v) else p
  else m ++ [(k, v)]

/-- Embeds `self._stores = {store.name: store for store in stores}`
(rag_store.py line 242): a later member with a duplicate name overwrites
the earlier one's dict entry. -/
def buildStores (stores : List LeafStore) : List (String × LeafStore) :=
  stores.foldl (fun m s => dictInsert m s.name s) []

/-- Composite store state (rag_store.py lines 229-243): the name-keyed
member dict and the default member `self._default = stores[0]`. -/
structure CompositeStore where
  storesMap : List (String × LeafStore)
  defaultStore : LeafStore
deriving DecidableEq, Repr

/-- Embeds `CompositeRAGStore.__init__` (rag_store.py lines 232-243):
construction fails on an empty member sequence and otherwise records the
member dict and the first member as default. -/
def CompositeStore.make (stores : List LeafStore) : Except RAGError CompositeStore :=
  match stores with
  | [] => Except.error ⟨"CompositeRAGStore requires at least one store"⟩
  | s :: rest => Except.ok { storesMap := buildStores (s :: rest), defaultStore := s }

/-- Member lookup `self._stores.get(name)` (rag_store.py lines 256, 274). -/
def CompositeStore.findStore (c : CompositeStore) (name : String) : Option LeafStore :=
  assocGet c.storesMap name

/-- Embeds `CompositeRAGStore.upsert` (rag_store.py lines 249-260): resolve
the target (default member when `store` is `None`), fail on an unknown
name, delegate to the target's upsert and return the qualified id
`<target-name>:<local-id>`.  The target's own state change is
`LeafStore.upsert`'s; the claims concern the returned id and the errors. -/
def CompositeStore.upsert (embed : String → List ℚ) (c : CompositeStore)
    (source : Option String) (content : String) (store : Option String) :
    Except RAGError String :=
  match (match store with
      | none => some c.defaultStore
      | some s => c.findStore s) with
  | none => Except.error (unknownStoreError (store.getD ""))
  | some t => Except.ok (t.name ++ ":" ++ (LeafStore.upsert embed t source content).2)

/-- Selection loop of `CompositeRAGStore.query` (rag_store.py lines
271-277): resolve every requested name in order, failing with the
unknown-store error on the first name not in the membership. -/
def resolveSelection (c : CompositeStore) (names : List String) :
    Except RAGError (List LeafStore) :=
  names.mapM fun nm =>
    match c.findStore nm with
    | none => Except.error (unknownStoreError nm)
    | some st => Except.ok st

/-- Fan-out loop of `CompositeRAGStore.query` (rag_store.py lines 282-294):
query each selected member with the shared query vector and the same
limit, requalify the returned documents by member name; a member failure
aborts the whole call. -/
def fanOut (sqrt : ℚ → ℚ) (embed : String → List ℚ) (text : String) (limit : Int)
    (queryVec : List ℚ) (selected : List LeafStore) :
    Except RAGError (List (List RAGDocument)) :=
  selected.mapM fun st =>
    match leafQuery sqrt embed st text limit (some queryVec) with
    | Except.error e => Except.error e
    | Except.ok results => Except.ok (results.map (requalify st.name))

/-- Embeds `CompositeRAGStore.query` (rag_store.py lines 262-296).  The
selection follows Python truthiness of `stores` (`None` and `[]` both fall
back to all members, in dict order `list(self._stores.values())`); the
query vector is computed once and shared; the requalified member results
are concatenated, stable-sorted descending by score, and truncated to the
global `max(0, limit)`. -/
def CompositeStore.query (sqrt : ℚ → ℚ) (embed : String → List ℚ) (c : CompositeStore)
    (text : String) (limit : Int) (embedding : Option (List ℚ))
    (stores : Option (List String)) : Except RAGError (List RAGDocument) :=
  match (match stores with
      | some (n :: ns) => resolveSelection c (n :: ns)
      | _ => Except.ok (c.storesMap.map Prod.snd)) with
  | Except.error e => Except.error e
  | Except.ok selected =>
    match fanOut sqrt embed text limit (resolveVec embed text embedding) selected with
    | Except.error e => Except.error e
    | Except.ok perStore =>
      Except.ok ((perStore.flatten.mergeSort scoreDesc).take (max 0 limit).toNat)

/-- Python truthiness of an optional string environment value: `None` and
the empty string are falsy. -/
def otruthy (o : Option String) : Bool :=
  match o with
  | some s => decide (s ≠ "")
  | none => false

/-- Python `x or d` on an optional string: falsy (`None` or `""`) falls
through to the default. -/
def envOr (o : Option String) (d : String) : String :=
  match o with
  | some s => if s = "" then d else s
  | none => d

/-- Python `str.lower()`, a runtime builtin external to this repository,
modelled as per-character lowering (the configuration keywords involved
are ASCII). -/
def pyLower (s : String) : String :=
  ⟨s.data.map Char.toLower⟩

/-- One JSON store descriptor of `RAG_SOURCES`: the `type`, `name` and
`path` fields as optional strings, or a non-object array element.  Values
of other JSON types in these fields are outside the claims' granularity. -/
inductive SourceEntry
  | obj (type_ : Option String) (name : Option String) (path : Option String)
  | nonObject
deriving DecidableEq, Repr

/-- Parse-level view of the `RAG_SOURCES` environment value: unset or empty
string (falsy) / set but invalid JSON / valid JSON that is not an array /
a JSON array of entries.  Note that the string `"[]"` is truthy and parses
to `arr []`, which is distinct from `absent`. -/
inductive RawSources
  | absent
  | invalid
  | notArray
  | arr (entries : List SourceEntry)
deriving DecidableEq, Repr

/-- Configuration of one store as constructed by the factory: the durable
variant keeps the raw optional name (`SQLiteRAGStore.__init__` later
defaults it to `sqlite:<path>`); the ephemeral variant's name is resolved
at build time to `name or "memory:<idx>"`. -/
inductive BuiltStore
  | sqlite (path : String) (name : Option String)
  | memory (name : String)
deriving DecidableEq, Repr

/-- Store topology returned by the factory: a single store, or a Composite
over the listed members (first member = default upsert target, by
`CompositeStore.make`). -/
inductive TopStore
  | single (s : BuiltStore)
  | composite (members : List BuiltStore)
deriving DecidableEq, Repr

/-- Factory output: the embedder configuration and the store topology. -/
structure BuildResult where
  embedEndpoint : String
  embedModel : String
  topStore : TopStore
deriving DecidableEq, Repr

/-- Embeds the per-entry store construction inside `build_default_store`
(rag_store.py lines 330-343): `kind = entry.get("type", "sqlite").lower()`,
a sqlite entry requires a truthy `path`, a memory entry defaults its name
to `memory:<idx>`, anything else is unsupported. -/
def buildEntry (idx : Nat) (e : SourceEntry) : Except RAGError BuiltStore :=
  match e with
  | SourceEntry.nonObject => Except.error ⟨"Each RAG source must be an object"⟩
  | SourceEntry.obj type_ name path =>
    let kind := pyLower (type_.getD "sqlite")
    if kind = "sqlite" then
      if otruthy path = false then Except.error ⟨"sqlite RAG source requires 'path'"⟩
      else Except.ok (BuiltStore.sqlite (path.getD "") name)
    else if kind = "memory" then
      Except.ok (BuiltStore.memory (envOr name ("memory:" ++ toString idx)))
    else Except.error ⟨"Unsupported RAG source type '" ++ kind ++ "'"⟩

/-- Embeds `build_default_store` (rag_store.py lines 314-351) as a pure
function of the environment: `OLLAMA_ENDPOINT`, `RAG_EMBED_MODEL`,
`OLLAMA_MODEL` and `RAG_DB_PATH` as optional strings and `RAG_SOURCES` at
the granularity of its parse outcome.  File-system effects of store
construction are represented by the returned configuration. -/
def build_default_store (endpoint ragEmbedModel ollamaModel : Option String)
    (ragSources : RawSources) (ragDbPath : Option String) :
    Except RAGError BuildResult :=
  if otruthy endpoint = false then
    Except.error ⟨"OLLAMA_ENDPOINT is required to use RAG embeddings"⟩
  else
    let ep := endpoint.getD ""
    let model := envOr ragEmbedModel (envOr ollamaModel "llama3")
    match ragSources with
    | RawSources.invalid => Except.error ⟨"RAG_SOURCES must be valid JSON"⟩
    | RawSources.notArray => Except.error ⟨"RAG_SOURCES must be a JSON array"⟩
    | RawSources.arr config =>
      match (config.enum.mapM fun p => buildEntry p.1 p.2) with
      | Except.error e => Except.error e
      | Except.ok [] => Except.error ⟨"RAG_SOURCES did not yield any stores"⟩
      | Except.ok [s] =>
        Except.ok { embedEndpoint := ep, embedModel := model, topStore := TopStore.single s }
      | Except.ok (s₁ :: s₂ :: more) =>
        Except.ok { embedEndpoint := ep, embedModel := model,
                    topStore := TopStore.composite (s₁ :: s₂ :: more) }
    | RawSources.absent =>
      Except.ok { embedEndpoint := ep, embedModel := model,
                  topStore := TopStore.single
                    (BuiltStore.sqlite (ragDbPath.getD "rag_store.db") none) }

/-- Concrete one-document store used by the witness of `leafQuery_contract`. -/
def wStoreC6 : LeafStore :=
  { name := "s", nextId := 2,
    docs := [{ id := "1", source := some "src", content := "c", embedding := [1, 0] }] }

/-- Concrete expected result document of the witness of `leafQuery_contract`:
its stored embedding equals the query vector, so its cosine score is 1. -/
def wDocC6 : RAGDocument :=
  { id := "1", content := "c", score := 1, source := some "src", store := some "s" }

/-- Concrete embedder used by the composite witnesses. -/
def wEmbed : String → List ℚ :=
  fun _ => [1, 0]

/-- Concrete member store `alpha` of the composite witnesses; its document
is aligned with the query vector (score 1). -/
def wAlpha : LeafStore :=
  { name := "alpha", nextId := 2,
    docs := [{ id := "1", source := some "sa", content := "ca", embedding := [1, 0] }] }

/-- Concrete member store `beta` of the composite witnesses; its document
is orthogonal to the query vector (score 0). -/
def wBeta : LeafStore :=
  { name := "beta", nextId := 2,
    docs := [{ id := "1", source := some "sb", content := "cb", embedding := [0, 1] }] }

/-- Concrete two-member composite used by the composite witnesses. -/
def wComposite : CompositeStore :=
  { storesMap := buildStores [wAlpha, wBeta], defaultStore := wAlpha }

/-- Expected raw result of querying `wAlpha`. -/
def wDocA : RAGDocument :=
  { id := "1", content := "ca", score := 1, source := some "sa", store := some "alpha" }

/-- Expected raw result of querying `wBeta`. -/
def wDocB : RAGDocument :=
  { id := "1", content := "cb", score := 0, source := some "sb", store := some "beta" }

/-- Transitivity of the reflected descending comparison. -/
theorem scoreDesc_trans : ∀ a b c : RAGDocument,
    scoreDesc a b = true → scoreDesc b c = true → scoreDesc a c = true := by
  intro a b c hab hbc
  simp only [scoreDesc, decide_eq_true_eq] at *
  exact le_trans hbc hab

/-- Totality of the reflected descending comparison. -/
theorem scoreDesc_total : ∀ a b : RAGDocument,
    (scoreDesc a b || scoreDesc b a) = true := by
  intro a b
  simp only [scoreDesc, Bool.or_eq_true, decide_eq_true_eq]
  exact le_total b.score a.score

/-- Reduction of `Except` bind on a success value. -/
theorem except_bind_ok {α β ε : Type} (x : α) (k : α → Except ε β) :
    (Except.ok x >>= k) = k x := rfl

/-- Reduction of `Except` bind on an error value. -/
theorem except_bind_error {α β ε : Type} (e : ε) (k : α → Except ε β) :
    ((Except.error e : Except ε α) >>= k) = Except.error e := rfl

/-- Reduction of `Except` pure. -/
theorem except_pure_eq {α ε : Type} (x : α) :
    (pure x : Except ε α) = Except.ok x := rfl

/-- An `Except`-valued `mapM` over a list whose prefix succeeds fails with
the error of the first failing element. -/
theorem exceptMapM_append_error {α β ε : Type} (f : α → Except ε β)
    (pre : List α) (hpre : ∀ m ∈ pre, ∃ b, f m = Except.ok b)
    (n : α) (post : List α) (e : ε) (hn : f n = Except.error e) :
    (pre ++ n :: post).mapM f = Except.error e := by
  induction pre with
  | nil =>
    rw [List.nil_append, List.mapM_cons, hn, except_bind_error]
  | cons p ps ih =>
    obtain ⟨b, hb⟩ := hpre p (by simp)
    rw [List.cons_append, List.mapM_cons, hb, except_bind_ok,
      ih fun m hm => hpre m (by simp [hm]), except_bind_error]

/-- An `Except`-valued `mapM` preserves list length on success. -/
theorem exceptMapM_length {α β ε : Type} (f : α → Except ε β) :
    ∀ (l : List α) (bs : List β), l.mapM f = Except.ok bs → bs.length = l.length := by
  intro l
  induction l with
  | nil =>
    intro bs h
    rw [List.mapM_nil] at h
    injection h with h
    rw [← h]
    rfl
  | cons a as ih =>
    intro bs h
    rw [List.mapM_cons] at h
    cases ha : f a with
    | error e => rw [ha, except_bind_error] at h; exact absurd h (by simp)
    | ok b =>
      rw [ha, except_bind_ok] at h
      cases has : as.mapM f with
      | error e => rw [has, except_bind_error] at h; exact absurd h (by simp)
      | ok cs =>
        rw [has, except_bind_ok, except_pure_eq] at h
        injection h with h
        rw [← h]
        simp [ih cs has]

/-- When every requested name resolves, the selection loop returns the
members in request order. -/
theorem resolveSelection_ok (c : CompositeStore) :
    ∀ (names : List String) (sel : List LeafStore),
      names.mapM c.findStore = some sel → resolveSelection c names = Except.ok sel := by
  intro names
  induction names with
  | nil =>
    intro sel h
    rw [List.mapM_nil] at h
    injection h with h
    rw [← h]
    rfl
  | cons n ns ih =>
    intro sel h
    rw [List.mapM_cons] at h
    cases hn : c.findStore n with
    | none => rw [hn] at h; exact absurd h (by simp)
    | some st =>
      rw [hn] at h
      cases hns : ns.mapM c.findStore with
      | none => rw [hns] at h; exact absurd h (by simp)
      | some sts =>
        rw [hns] at h
        have h : some (st :: sts) = some sel := h
        injection h with h
        rw [← h]
        unfold resolveSelection
        rw [List.mapM_cons, hn]
        have := ih sts hns
        unfold resolveSelection at this
        rw [this]
        rfl

/-- When every selected member's query succeeds, the fan-out loop returns
the per-member requalified result lists, member-aligned. -/
theorem fanOut_ok (sqrt : ℚ → ℚ) (embed : String → List ℚ) (text : String)
    (limit : Int) (queryVec : List ℚ) :
    ∀ (sel : List LeafStore) (results : List (List RAGDocument)),
      sel.mapM (fun st => leafQuery sqrt embed st text limit (some queryVec)) =
        Except.ok results →
      fanOut sqrt embed text limit queryVec sel =
        Except.ok (List.zipWith (fun st rs => rs.map (requalify st.name)) sel results) := by
  intro sel
  induction sel with
  | nil =>
    intro results h
    rw [List.mapM_nil] at h
    injection h with h
    rw [← h]
    rfl
  | cons st sts ih =>
    intro results h
    rw [List.mapM_cons] at h
    cases hst : leafQuery sqrt embed st text limit (some queryVec) with
    | error e => rw [hst, except_bind_error] at h; exact absurd h (by simp)
    | ok rs =>
      rw [hst, except_bind_ok] at h
      cases hsts : sts.mapM (fun st => leafQuery sqrt embed st text limit (some queryVec)) with
      | error e => rw [hsts, except_bind_error] at h; exact absurd h (by simp)
      | ok rss =>
        rw [hsts, except_bind_ok, except_pure_eq] at h
        injection h with h
        rw [← h]
        unfold fanOut
        rw [List.mapM_cons, hst]
        have := ih rss hsts
        unfold fanOut at this
        rw [this, except_bind_ok, except_bind_ok, except_pure_eq]
        rfl

/-- Replacing the value at key `k` does not change reads of other keys. -/
theorem assocGet_mapReplace_ne (k : String) (v : LeafStore) (n : String) (hne : n ≠ k) :
    ∀ m : List (String × LeafStore),
      assocGet (m.map fun p => if p.1 = k then (k, v) else p) n = assocGet m n := by
  intro m
  induction m with
  | nil => rfl
  | cons p ps ih =>
    by_cases hp : p.1 = k
    · simp only [List.map_cons, if_pos hp]
      rw [assocGet, assocGet, if_neg fun h => hne h.symm,
        if_neg fun h => hne (hp ▸ h).symm]
      exact ih
    · simp only [List.map_cons, if_neg hp]
      rw [assocGet, assocGet]
      by_cases hpn : p.1 = n
      · rw [if_pos hpn, if_pos hpn]
      · rw [if_neg hpn, if_neg hpn]
        exact ih

/-- Appending a binding for key `k` does not change reads of other keys. -/
theorem assocGet_append_ne (k : String) (v : LeafStore) (n : String) (hne : n ≠ k) :
    ∀ m : List (String × LeafStore),
      assocGet (m ++ [(k, v)]) n = assocGet m n := by
  intro m
  induction m with
  | nil =>
    rw [List.nil_append]
    show (if k = n then some v else assocGet [] n) = assocGet [] n
    rw [if_neg fun h => hne h.symm]
  | cons p ps ih =>
    rw [List.cons_append, assocGet, assocGet]
    by_cases hpn : p.1 = n
    · rw [if_pos hpn, if_pos hpn]
    · rw [if_neg hpn, if_neg hpn]
      exact ih

/-- Reading the key just written by `dictInsert`. -/
theorem assocGet_dictInsert_self (m : List (String × LeafStore)) (k : String)
    (v : LeafStore) : assocGet (dictInsert m k v) k = some v := by
  unfold dictInsert
  by_cases hk : (m.any fun p => p.1 = k) = true
  · rw [if_pos hk]
    induction m with
    | nil => simp at hk
    | cons p ps ih =>
      by_cases hp : p.1 = k
      · simp only [List.map_cons, if_pos hp]
        rw [assocGet, if_pos rfl]
      · simp only [List.any_cons, Bool.or_eq_true, decide_eq_true_eq] at hk
        rcases hk with h | h
        · exact absurd h hp
        · simp only [List.map_cons, if_neg hp]
          rw [assocGet, if_neg hp]
          exact ih (by simpa using h)
  · rw [if_neg hk]
    induction m with
    | nil =>
      rw [List.nil_append, assocGet, if_pos rfl]
    | cons p ps ih =>
      simp only [List.any_cons, Bool.or_eq_true, decide_eq_true_eq, not_or] at hk
      rw [List.cons_append, assocGet, if_neg hk.1]
      exact ih (by simpa using hk.2)

/-- Reading any other key through `dictInsert`. -/
theorem assocGet_dictInsert_ne (m : List (String × LeafStore)) (k : String)
    (v : LeafStore) (n : String) (hne : n ≠ k) :
    assocGet (dictInsert m k v) n = assocGet m n := by
  unfold dictInsert
  by_cases hk : (m.any fun p => p.1 = k) = true
  · rw [if_pos hk]
    exact assocGet_mapReplace_ne k v n hne m
  · rw [if_neg hk]
    exact assocGet_append_ne k v n hne m

/-- Reading through the member dict built by a fold of `dictInsert`: the
last-listed member bearing the name wins; names absent from the member
list fall through to the accumulator. -/
theorem assocGet_foldl_dictInsert (n : String) :
    ∀ (ss : List LeafStore) (m : List (String × LeafStore)),
      assocGet (ss.foldl (fun acc s => dictInsert acc s.name s) m) n =
        match ss.reverse.find? fun s => decide (s.name = n) with
        | some s => some s
        | none => assocGet m n := by
  intro ss
  induction ss with
  | nil => intro m; rfl
  | cons s tl ih =>
    intro m
    rw [List.foldl_cons, ih, List.reverse_cons, List.find?_append]
    cases htl : tl.reverse.find? fun s => decide (s.name = n) with
    | some x => rfl
    | none =>
      show assocGet (dictInsert m s.name s) n =
        match List.find? (fun s => decide (s.name = n)) [s] with
        | some s => some s
        | none => assocGet m n
      by_cases hs : s.name = n
      · rw [List.find?_cons_of_pos _ (by simpa using hs)]
        subst hs
        exact assocGet_dictInsert_self m s.name s
      · rw [List.find?_cons_of_neg _ (by simpa using hs)]
        exact assocGet_dictInsert_ne m s.name s n fun h => hs h.symm

/-- Name lookup in a freshly built member dict resolves to the last-listed
member with that name. -/
theorem assocGet_buildStores (ss : List LeafStore) (n : String) :
    assocGet (buildStores ss) n = ss.reverse.find? fun s => decide (s.name = n) := by
  unfold buildStores
  rw [assocGet_foldl_dictInsert n ss []]
  cases h : ss.reverse.find? fun s => decide (s.name = n) with
  | some x => rfl
  | none => rfl

/-- Claim C4 counterexample: the empty vector `[]` and `[1, 2, 3]` have
differing lengths, yet `_cosine_similarity` returns `0.0` instead of
signalling a dimensionality-mismatch error, because the emptiness test
(line 302) fires before the length test (line 304). -/
theorem cosine_mismatch_empty_counterexample :
    ([] : List ℚ).length ≠ ([1, 2, 3] : List ℚ).length ∧
    cosineSimilarity id [] [1, 2, 3] = Except.ok 0 := by
  constructor
  · decide
  · rfl

/-- Claim C4 (amended): for every pair of NON-EMPTY vectors of differing
length, `_cosine_similarity` signals the dimensionality-mismatch error —
it never truncates or pads; when either vector is empty the emptiness
branch returns `0.0` first, whatever the lengths. -/
theorem cosine_mismatch_error (sqrt : ℚ → ℚ) (a b : List ℚ)
    (ha : a ≠ []) (hb : b ≠ []) (hlen : a.length ≠ b.length) :
    cosineSimilarity sqrt a b = Except.error ⟨"Embedding dimensionality mismatch"⟩ := by
  unfold cosineSimilarity
  rw [if_neg (by simp [ha, hb]), if_pos hlen]

/-- Witness for `cosine_mismatch_error` at the spec's own example pair
`[1, 2]` and `[1, 2, 3]`. -/
theorem cosine_mismatch_error_witness :
    ([1, 2] : List ℚ) ≠ [] ∧ ([1, 2, 3] : List ℚ) ≠ [] ∧
    ([1, 2] : List ℚ).length ≠ ([1, 2, 3] : List ℚ).length ∧
    cosineSimilarity id [1, 2] [1, 2, 3] = Except.error ⟨"Embedding dimensionality mismatch"⟩ :=
  ⟨by decide, by decide, by decide,
    cosine_mismatch_error id [1, 2] [1, 2, 3] (by decide) (by decide) (by decide)⟩

/-- Claim C5 counterexample: `[0, 0]` has magnitude exactly zero, yet
`_cosine_similarity` RAISES on the pair `([0, 0], [1, 2, 3])` because the
length test fires before the zero-magnitude test; so "magnitude zero
implies returns 0.0 and never raises" is false as stated. -/
theorem cosine_zero_magnitude_counterexample :
    id (sumSq ([0, 0] : List ℚ)) = 0 ∧
    cosineSimilarity id [0, 0] [1, 2, 3] = Except.error ⟨"Embedding dimensionality mismatch"⟩ := by
  constructor
  · simp [sumSq]
  · rfl

/-- Claim C5 (amended): `_cosine_similarity` returns `0.0` whenever either
vector is empty, and whenever the vectors have EQUAL length and either
magnitude (`sqrt` of the sum of squares) is exactly zero; in those cases
the guarded division is never reached.  For vectors of differing length a
zero magnitude does not prevent the dimensionality-mismatch error. -/
theorem cosine_degenerate_zero (sqrt : ℚ → ℚ) (a b : List ℚ)
    (h : a = [] ∨ b = [] ∨
      (a.length = b.length ∧ (sqrt (sumSq a) = 0 ∨ sqrt (sumSq b) = 0))) :
    cosineSimilarity sqrt a b = Except.ok 0 := by
  unfold cosineSimilarity
  rcases h with h | h | ⟨hlen, hz⟩
  · rw [if_pos (Or.inl h)]
  · rw [if_pos (Or.inr h)]
  · by_cases hab : a = [] ∨ b = []
    · rw [if_pos hab]
    · rw [if_neg hab, if_neg (by simpa using hlen)]
      simp only []
      rw [if_pos hz]

/-- Witness for `cosine_degenerate_zero` at the zero vector `[0, 0]`
against `[3, 4]`. -/
theorem cosine_degenerate_zero_witness :
    (([0, 0] : List ℚ) = [] ∨ ([3, 4] : List ℚ) = [] ∨
      (([0, 0] : List ℚ).length = ([3, 4] : List ℚ).length ∧
        (id (sumSq ([0, 0] : List ℚ)) = 0 ∨ id (sumSq ([3, 4] : List ℚ)) = 0))) ∧
    cosineSimilarity id [0, 0] [3, 4] = Except.ok 0 :=
  ⟨Or.inr (Or.inr ⟨by decide, Or.inl (by simp [sumSq])⟩),
    cosine_degenerate_zero id [0, 0] [3, 4]
      (Or.inr (Or.inr ⟨by decide, Or.inl (by simp [sumSq])⟩))⟩

/-- Claim C6 counterexample: on a store holding one 1-dimensional document,
a query whose vector is 2-dimensional RAISES the dimensionality-mismatch
error even though `limit = 0`, because scoring happens before truncation;
so "limit <= 0 returns an empty sequence rather than raising" is false as
stated. -/
theorem leafQuery_limit_zero_raises :
    leafQuery id (fun _ => [1, 1])
      { name := "s", nextId := 2,
        docs := [{ id := "1", source := none, content := "c", embedding := [1] }] }
      "q" 0 none = Except.error ⟨"Embedding dimensionality mismatch"⟩ := by
  rfl

/-- Claim C6 (amended): a successful leaf query returns at most `limit`
results (`limit <= 0` thus yields the empty sequence), sorted descending by
score; the result is the `max(0, limit)`-truncation of the unique
descending, insertion-order-stable reordering of the scored rows — any two
rows already in weakly descending score order (in particular, ties) keep
their relative insertion order.  When a stored row's dimensionality
mismatches the query vector the call raises instead, even for
`limit <= 0`, since scoring precedes truncation. -/
theorem leafQuery_contract (sqrt : ℚ → ℚ) (embed : String → List ℚ) (st : LeafStore)
    (text : String) (limit : Int) (emb : Option (List ℚ)) (res : List RAGDocument)
    (h : leafQuery sqrt embed st text limit emb = Except.ok res) :
    (res.length : Int) ≤ max 0 limit ∧
    (limit ≤ 0 → res = []) ∧
    List.Pairwise (fun x y => y.score ≤ x.score) res ∧
    ∀ scored, scoreDocs sqrt (resolveVec embed text emb) st.name st.docs = Except.ok scored →
      ∃ sorted, sorted.Perm scored ∧
        List.Pairwise (fun x y => y.score ≤ x.score) sorted ∧
        (∀ a b, [a, b].Sublist scored → b.score ≤ a.score → [a, b].Sublist sorted) ∧
        res = sorted.take (max 0 limit).toNat := by
  unfold leafQuery at h
  cases hd : scoreDocs sqrt (resolveVec embed text emb) st.name st.docs with
  | error e =>
    rw [hd] at h
    exact absurd h (by simp)
  | ok docs =>
    rw [hd] at h
    have hres : res = (docs.mergeSort scoreDesc).take (max 0 limit).toNat := by
      injection h with h₁
      exact h₁.symm
    have hsorted : List.Pairwise (fun a b => scoreDesc a b = true) (docs.mergeSort scoreDesc) :=
      List.sorted_mergeSort scoreDesc_trans scoreDesc_total docs
    have hsorted₂ : List.Pairwise (fun x y => y.score ≤ x.score) (docs.mergeSort scoreDesc) :=
      hsorted.imp fun hxy => by simpa [scoreDesc] using hxy
    refine ⟨?_, ?_, ?_, ?_⟩
    · rw [hres]
      calc ((List.take (max 0 limit).toNat (docs.mergeSort scoreDesc)).length : Int)
          ≤ ((max 0 limit).toNat : Int) := by
            have hq : (List.take (max 0 limit).toNat (docs.mergeSort scoreDesc)).length ≤
                (max 0 limit).toNat := by
              rw [List.length_take]
              exact Nat.min_le_left _ _
            exact_mod_cast hq
        _ = max 0 limit := Int.toNat_of_nonneg (le_max_left 0 limit)
    · intro hlim
      rw [hres]
      have hmax : max 0 limit = 0 := max_eq_left hlim
      rw [hmax]
      simp
    · rw [hres]
      exact hsorted₂.sublist (List.take_sublist _ _)
    · intro scored hscored
      injection hscored with hs
      subst hs
      refine ⟨docs.mergeSort scoreDesc, List.mergeSort_perm docs scoreDesc, hsorted₂, ?_, hres⟩
      intro a b hsub hle
      exact List.pair_sublist_mergeSort scoreDesc_trans scoreDesc_total
        (by simpa [scoreDesc] using hle) hsub

/-- Witness for `leafQuery_contract` at the concrete store `wStoreC6`. -/
theorem leafQuery_contract_witness :
    leafQuery id (fun _ => [1, 0]) wStoreC6 "q" 5 none = Except.ok [wDocC6] ∧
    ((([wDocC6] : List RAGDocument).length : Int) ≤ max 0 5 ∧
      ((5 : Int) ≤ 0 → ([wDocC6] : List RAGDocument) = []) ∧
      List.Pairwise (fun x y => y.score ≤ x.score) [wDocC6] ∧
      ∀ scored, scoreDocs id (resolveVec (fun _ => [1, 0]) "q" none)
          wStoreC6.name wStoreC6.docs = Except.ok scored →
        ∃ sorted, sorted.Perm scored ∧
          List.Pairwise (fun x y => y.score ≤ x.score) sorted ∧
          (∀ a b, [a, b].Sublist scored → b.score ≤ a.score → [a, b].Sublist sorted) ∧
          ([wDocC6] : List RAGDocument) = sorted.take (max 0 (5 : Int)).toNat) := by
  have h₁ : scoreDocs id (resolveVec (fun _ => [1, 0]) "q" none) wStoreC6.name wStoreC6.docs =
      Except.ok [wDocC6] := by
    rw [show resolveVec (fun _ => [1, 0]) "q" none = [1, 0] from rfl]
    simp only [scoreDocs, wStoreC6]
    rw [List.mapM_cons, List.mapM_nil]
    simp [cosineSimilarity, sumSq, dotProd, wDocC6]
  have hEval : leafQuery id (fun _ => [1, 0]) wStoreC6 "q" 5 none = Except.ok [wDocC6] := by
    simp only [leafQuery]
    rw [h₁]
    simp
  exact ⟨hEval, leafQuery_contract id (fun _ => [1, 0]) wStoreC6 "q" 5 none [wDocC6] hEval⟩

/-- Unfolding of a Composite query at a non-empty (truthy) selection. -/
theorem query_cons (sqrt : ℚ → ℚ) (embed : String → List ℚ) (c : CompositeStore)
    (text : String) (limit : Int) (emb : Option (List ℚ)) (n : String) (ns : List String) :
    c.query sqrt embed text limit emb (some (n :: ns)) =
      match resolveSelection c (n :: ns) with
      | Except.error e => Except.error e
      | Except.ok selected =>
        match fanOut sqrt embed text limit (resolveVec embed text emb) selected with
        | Except.error e => Except.error e
        | Except.ok perStore =>
          Except.ok ((perStore.flatten.mergeSort scoreDesc).take (max 0 limit).toNat) := rfl

/-- Unfolding of a Composite upsert at a named-store argument. -/
theorem upsert_some (embed : String → List ℚ) (c : CompositeStore)
    (source : Option String) (content : String) (s : String) :
    c.upsert embed source content (some s) =
      match c.findStore s with
      | none => Except.error (unknownStoreError s)
      | some t => Except.ok (t.name ++ ":" ++ (LeafStore.upsert embed t source content).2) := rfl

/-- Claim C9: a Composite query called with a present but empty `stores`
list behaves exactly like a call with no selection — Python `if stores:`
is false for `[]`, so the selection falls back to all members rather than
selecting no stores or raising. -/
theorem composite_query_empty_selection_all (sqrt : ℚ → ℚ) (embed : String → List ℚ)
    (c : CompositeStore) (text : String) (limit : Int) (emb : Option (List ℚ)) :
    c.query sqrt embed text limit emb (some []) = c.query sqrt embed text limit emb none := rfl

/-- Claim C10: Composite construction from a non-empty member sequence with
duplicate names succeeds; the member dict resolves a name to the
LAST-listed member bearing it (a later dict-comprehension insertion
overwrites an earlier one), while the default upsert target stays the
first element of the sequence — so an earlier duplicate-named member is
unreachable by name. -/
theorem composite_duplicate_names (s₀ : LeafStore) (rest : List LeafStore) :
    CompositeStore.make (s₀ :: rest) =
      Except.ok { storesMap := buildStores (s₀ :: rest), defaultStore := s₀ } ∧
    ∀ c : CompositeStore, CompositeStore.make (s₀ :: rest) = Except.ok c →
      c.defaultStore = s₀ ∧
      ∀ n, c.findStore n = (s₀ :: rest).reverse.find? fun s => decide (s.name = n) := by
  refine ⟨rfl, ?_⟩
  intro c hc
  unfold CompositeStore.make at hc
  injection hc with h
  subst h
  refine ⟨rfl, ?_⟩
  intro n
  exact assocGet_buildStores (s₀ :: rest) n

/-- Claim C8: a Composite upsert without a `store` argument delegates to
the first member supplied at construction, and every successful upsert
returns the qualified id `<target-name>:<local-id>` where the local id is
the one the target leaf store's own upsert returned. -/
theorem composite_upsert_default_qualified (embed : String → List ℚ)
    (s₀ : LeafStore) (rest : List LeafStore) (c : CompositeStore)
    (hmk : CompositeStore.make (s₀ :: rest) = Except.ok c)
    (source : Option String) (content : String) :
    c.upsert embed source content none =
      Except.ok (s₀.name ++ ":" ++ (LeafStore.upsert embed s₀ source content).2) ∧
    ∀ store rid, c.upsert embed source content store = Except.ok rid →
      ∃ t : LeafStore,
        (store = none → t = c.defaultStore) ∧
        (∀ s, store = some s → c.findStore s = some t) ∧
        rid = t.name ++ ":" ++ (LeafStore.upsert embed t source content).2 := by
  unfold CompositeStore.make at hmk
  injection hmk with h
  subst h
  constructor
  · rfl
  · intro store rid hup
    cases store with
    | none =>
      have hup₂ : Except.ok (s₀.name ++ ":" ++ (LeafStore.upsert embed s₀ source content).2) =
          Except.ok rid := hup
      injection hup₂ with h₂
      exact ⟨s₀, fun _ => rfl, fun s hs => by exact absurd hs (by simp), h₂.symm⟩
    | some s =>
      rw [upsert_some] at hup
      cases hfind : CompositeStore.findStore
          { storesMap := buildStores (s₀ :: rest), defaultStore := s₀ } s with
      | none =>
        rw [hfind] at hup
        exact absurd hup (by simp)
      | some t =>
        rw [hfind] at hup
        have hup₂ : Except.ok (t.name ++ ":" ++ (LeafStore.upsert embed t source content).2) =
            Except.ok rid := hup
        injection hup₂ with h₂
        refine ⟨t, fun hcontra => by exact absurd hcontra (by simp), ?_, h₂.symm⟩
        intro s₂ hs₂
        injection hs₂ with hs₂
        rw [← hs₂]
        exact hfind

/-- Claim C7: a Composite upsert naming a non-member fails with the
unknown-store error, and a Composite query whose selection reaches an
unknown name fails with the unknown-store error of the first such name —
the selection is resolved before any member is queried, so the failing
query yields no partial results. -/
theorem composite_unknown_store_error (sqrt : ℚ → ℚ) (embed : String → List ℚ)
    (c : CompositeStore) (source : Option String) (content text : String) (limit : Int)
    (emb : Option (List ℚ)) (s : String) (hs : c.findStore s = none)
    (pre post : List String) (n : String)
    (hpre : ∀ m ∈ pre, (c.findStore m).isSome = true)
    (hn : c.findStore n = none) :
    c.upsert embed source content (some s) = Except.error (unknownStoreError s) ∧
    c.query sqrt embed text limit emb (some (pre ++ n :: post)) =
      Except.error (unknownStoreError n) := by
  have hsel : resolveSelection c (pre ++ n :: post) = Except.error (unknownStoreError n) := by
    unfold resolveSelection
    refine exceptMapM_append_error _ pre ?_ n post _ ?_
    · intro m hm
      obtain ⟨st, hst⟩ := Option.isSome_iff_exists.mp (hpre m hm)
      exact ⟨st, by rw [hst]⟩
    · rw [hn]
  constructor
  · rw [upsert_some, hs]
  · cases pre with
    | nil =>
      rw [List.nil_append] at hsel ⊢
      rw [query_cons, hsel]
    | cons p ps =>
      rw [List.cons_append] at hsel ⊢
      rw [query_cons, hsel]

/-- Claim C1: a Composite query with a (non-empty, fully resolving) member
selection and a limit equals: each selected member queried with the one
shared query vector and the same limit, the member results collected with
ids re-qualified as `<member-name>:<local-id>` and `store` set to the
member name, concatenated in selection order, stable-sorted descending by
score, and truncated to the global `max(0, limit)` — so a single member's
documents can occupy every returned slot. -/
theorem composite_query_global_merge (sqrt : ℚ → ℚ) (embed : String → List ℚ)
    (c : CompositeStore) (text : String) (limit : Int) (emb : Option (List ℚ))
    (n : String) (ns : List String) (sel : List LeafStore)
    (hsel : (n :: ns).mapM c.findStore = some sel)
    (results : List (List RAGDocument))
    (hq : sel.mapM (fun st => leafQuery sqrt embed st text limit
        (some (resolveVec embed text emb))) = Except.ok results) :
    c.query sqrt embed text limit emb (some (n :: ns)) =
      Except.ok (((List.zipWith (fun st rs => rs.map (requalify st.name))
          sel results).flatten.mergeSort scoreDesc).take (max 0 limit).toNat) := by
  rw [query_cons, resolveSelection_ok c (n :: ns) sel hsel]
  simp only [fanOut_ok sqrt embed text limit (resolveVec embed text emb) sel results hq]

/-- Witness for `composite_query_global_merge` on the two-member composite
`wComposite`, selecting both members with `limit = 1`. -/
theorem composite_query_global_merge_witness :
    (["alpha", "beta"].mapM wComposite.findStore = some [wAlpha, wBeta]) ∧
    ([wAlpha, wBeta].mapM (fun st => leafQuery id wEmbed st "q" 1
        (some (resolveVec wEmbed "q" none))) = Except.ok [[wDocA], [wDocB]]) ∧
    wComposite.query id wEmbed "q" 1 none (some ["alpha", "beta"]) =
      Except.ok (((List.zipWith (fun st rs => rs.map (requalify st.name))
          [wAlpha, wBeta] [[wDocA], [wDocB]]).flatten.mergeSort
            scoreDesc).take (max 0 (1 : Int)).toNat) := by
  have hA : leafQuery id wEmbed wAlpha "q" 1 (some [1, 0]) = Except.ok [wDocA] := by
    have hs : scoreDocs id (resolveVec wEmbed "q" (some [1, 0])) wAlpha.name wAlpha.docs =
        Except.ok [wDocA] := by
      rw [show resolveVec wEmbed "q" (some [1, 0]) = [1, 0] from rfl]
      simp only [scoreDocs, wAlpha]
      rw [List.mapM_cons, List.mapM_nil]
      simp [cosineSimilarity, sumSq, dotProd, wDocA]
    simp only [leafQuery]
    rw [hs]
    simp
  have hB : leafQuery id wEmbed wBeta "q" 1 (some [1, 0]) = Except.ok [wDocB] := by
    have hs : scoreDocs id (resolveVec wEmbed "q" (some [1, 0])) wBeta.name wBeta.docs =
        Except.ok [wDocB] := by
      rw [show resolveVec wEmbed "q" (some [1, 0]) = [1, 0] from rfl]
      simp only [scoreDocs, wBeta]
      rw [List.mapM_cons, List.mapM_nil]
      simp [cosineSimilarity, sumSq, dotProd, wDocB]
    simp only [leafQuery]
    rw [hs]
    simp
  have h₁ : ["alpha", "beta"].mapM wComposite.findStore = some [wAlpha, wBeta] := by
    rw [List.mapM_cons, List.mapM_cons, List.mapM_nil,
      show wComposite.findStore "alpha" = some wAlpha from rfl,
      show wComposite.findStore "beta" = some wBeta from rfl]
    rfl
  have h₂ : [wAlpha, wBeta].mapM (fun st => leafQuery id wEmbed st "q" 1
      (some (resolveVec wEmbed "q" none))) = Except.ok [[wDocA], [wDocB]] := by
    rw [show resolveVec wEmbed "q" none = [1, 0] from rfl]
    rw [List.mapM_cons, List.mapM_cons, List.mapM_nil, hA, hB]
    rfl
  exact ⟨h₁, h₂,
    composite_query_global_merge id wEmbed wComposite "q" 1 none "alpha" ["beta"]
      [wAlpha, wBeta] h₁ [[wDocA], [wDocB]] h₂⟩

/-- Witness for `composite_unknown_store_error` on `wComposite` with the
unknown names `zeta` (upsert) and `gamma` (query, after the known member
`alpha`). -/
theorem composite_unknown_store_error_witness :
    wComposite.findStore "zeta" = none ∧
    (∀ m ∈ (["alpha"] : List String), (wComposite.findStore m).isSome = true) ∧
    wComposite.findStore "gamma" = none ∧
    wComposite.upsert wEmbed (some "src") "c" (some "zeta") =
      Except.error (unknownStoreError "zeta") ∧
    wComposite.query id wEmbed "q" 3 none (some (["alpha"] ++ "gamma" :: [])) =
      Except.error (unknownStoreError "gamma") := by
  have hz : wComposite.findStore "zeta" = none := rfl
  have hg : wComposite.findStore "gamma" = none := rfl
  have hp : ∀ m ∈ (["alpha"] : List String), (wComposite.findStore m).isSome = true := by
    intro m hm
    rw [List.mem_singleton] at hm
    subst hm
    rfl
  obtain ⟨hu, hq⟩ := composite_unknown_store_error id wEmbed wComposite (some "src") "c"
    "q" 3 none "zeta" hz ["alpha"] [] "gamma" hp hg
  exact ⟨hz, hp, hg, hu, hq⟩

/-- Witness for `composite_upsert_default_qualified` on `wComposite`. -/
theorem composite_upsert_default_qualified_witness :
    CompositeStore.make [wAlpha, wBeta] = Except.ok wComposite ∧
    (wComposite.upsert wEmbed (some "src") "c" none =
        Except.ok (wAlpha.name ++ ":" ++ (LeafStore.upsert wEmbed wAlpha (some "src") "c").2) ∧
      ∀ store rid, wComposite.upsert wEmbed (some "src") "c" store = Except.ok rid →
        ∃ t : LeafStore,
          (store = none → t = wComposite.defaultStore) ∧
          (∀ s, store = some s → wComposite.findStore s = some t) ∧
          rid = t.name ++ ":" ++ (LeafStore.upsert wEmbed t (some "src") "c").2) := by
  have hmk : CompositeStore.make [wAlpha, wBeta] = Except.ok wComposite := rfl
  exact ⟨hmk,
    composite_upsert_default_qualified wEmbed wAlpha [wBeta] wComposite hmk (some "src") "c"⟩

/-- Gate-and-branch unfolding of the factory at an array configuration. -/
theorem build_arr (endpoint ragEmbedModel ollamaModel ragDbPath : Option String)
    (he : otruthy endpoint = true) (config : List SourceEntry) :
    build_default_store endpoint ragEmbedModel ollamaModel (RawSources.arr config) ragDbPath =
      match (config.enum.mapM fun p => buildEntry p.1 p.2) with
      | Except.error e => Except.error e
      | Except.ok [] => Except.error ⟨"RAG_SOURCES did not yield any stores"⟩
      | Except.ok [s] =>
        Except.ok { embedEndpoint := endpoint.getD "",
                    embedModel := envOr ragEmbedModel (envOr ollamaModel "llama3"),
                    topStore := TopStore.single s }
      | Except.ok (s₁ :: s₂ :: more) =>
        Except.ok { embedEndpoint := endpoint.getD "",
                    embedModel := envOr ragEmbedModel (envOr ollamaModel "llama3"),
                    topStore := TopStore.composite (s₁ :: s₂ :: more) } := by
  unfold build_default_store
  rw [he]
  rfl

/-- Gate unfolding of the factory at an absent configuration. -/
theorem build_absent (endpoint ragEmbedModel ollamaModel ragDbPath : Option String)
    (he : otruthy endpoint = true) :
    build_default_store endpoint ragEmbedModel ollamaModel RawSources.absent ragDbPath =
      Except.ok { embedEndpoint := endpoint.getD "",
                  embedModel := envOr ragEmbedModel (envOr ollamaModel "llama3"),
                  topStore := TopStore.single
                    (BuiltStore.sqlite (ragDbPath.getD "rag_store.db") none) } := by
  unfold build_default_store
  rw [he]
  rfl

/-- Claim C2 counterexample: with a configured endpoint, an EMPTY
store-descriptor list (`RAG_SOURCES="[]"`, a truthy string parsing to an
empty array) does NOT yield a default durable store — `build_default_store`
raises `RAG_SOURCES did not yield any stores`. -/
theorem build_default_store_empty_list_errors :
    build_default_store (some "http://localhost") none none (RawSources.arr []) none =
      Except.error ⟨"RAG_SOURCES did not yield any stores"⟩ := by
  rfl

/-- Claim C2 (amended): with a truthy embedding endpoint — an ABSENT
store-descriptor list yields exactly one default-configured durable
(SQLite-backed) store at `RAG_DB_PATH or "rag_store.db"`; an EMPTY list is
instead rejected with the configuration error `RAG_SOURCES did not yield
any stores`; a list of two or more descriptors that all build yields a
Composite wrapping one store per descriptor in the listed order; and a
Composite's default upsert target is its first-listed member. -/
theorem build_default_store_contract (endpoint : Option String)
    (he : otruthy endpoint = true) (ragEmbedModel ollamaModel ragDbPath : Option String) :
    build_default_store endpoint ragEmbedModel ollamaModel RawSources.absent ragDbPath =
      Except.ok { embedEndpoint := endpoint.getD "",
                  embedModel := envOr ragEmbedModel (envOr ollamaModel "llama3"),
                  topStore := TopStore.single
                    (BuiltStore.sqlite (ragDbPath.getD "rag_store.db") none) } ∧
    build_default_store endpoint ragEmbedModel ollamaModel (RawSources.arr []) ragDbPath =
      Except.error ⟨"RAG_SOURCES did not yield any stores"⟩ ∧
    (∀ (config : List SourceEntry) (builtStores : List BuiltStore),
      (config.enum.mapM fun p => buildEntry p.1 p.2) = Except.ok builtStores →
      2 ≤ config.length →
      build_default_store endpoint ragEmbedModel ollamaModel (RawSources.arr config) ragDbPath =
        Except.ok { embedEndpoint := endpoint.getD "",
                    embedModel := envOr ragEmbedModel (envOr ollamaModel "llama3"),
                    topStore := TopStore.composite builtStores }) ∧
    (∀ (s₀ : LeafStore) (rest : List LeafStore) (c : CompositeStore),
      CompositeStore.make (s₀ :: rest) = Except.ok c → c.defaultStore = s₀) := by
  refine ⟨build_absent endpoint ragEmbedModel ollamaModel ragDbPath he, ?_, ?_, ?_⟩
  · rw [build_arr endpoint ragEmbedModel ollamaModel ragDbPath he []]
    rfl
  · intro config builtStores hbuilt hlen
    have hblen : builtStores.length = config.length := by
      rw [exceptMapM_length _ config.enum builtStores hbuilt, List.enum_length]
    cases builtStores with
    | nil => simp at hblen; omega
    | cons b₁ bs =>
      cases bs with
      | nil => simp at hblen; omega
      | cons b₂ bs₂ =>
        rw [build_arr endpoint ragEmbedModel ollamaModel ragDbPath he config, hbuilt]
  · intro s₀ rest c hc
    unfold CompositeStore.make at hc
    injection hc with h
    rw [← h]

/-- Witness for `build_default_store_contract` at a concrete endpoint with
all other environment values unset. -/
theorem build_default_store_contract_witness :
    otruthy (some "http://localhost") = true ∧
    (build_default_store (some "http://localhost") none none RawSources.absent none =
        Except.ok { embedEndpoint := (some "http://localhost").getD "",
                    embedModel := envOr none (envOr none "llama3"),
                    topStore := TopStore.single
                      (BuiltStore.sqlite ((none : Option String).getD "rag_store.db") none) } ∧
      build_default_store (some "http://localhost") none none (RawSources.arr []) none =
        Except.error ⟨"RAG_SOURCES did not yield any stores"⟩ ∧
      (∀ (config : List SourceEntry) (builtStores : List BuiltStore),
        (config.enum.mapM fun p => buildEntry p.1 p.2) = Except.ok builtStores →
        2 ≤ config.length →
        build_default_store (some "http://localhost") none none (RawSources.arr config) none =
          Except.ok { embedEndpoint := (some "http://localhost").getD "",
                      embedModel := envOr none (envOr none "llama3"),
                      topStore := TopStore.composite builtStores }) ∧
      (∀ (s₀ : LeafStore) (rest : List LeafStore) (c : CompositeStore),
        CompositeStore.make (s₀ :: rest) = Except.ok c → c.defaultStore = s₀)) :=
  ⟨rfl, build_default_store_contract (some "http://localhost") rfl none none none⟩

/-- Claim C3 counterexample: no classifier of error values can send every
embedding-provider network error to "embedding" (`true`) and every
store-level unknown-store error to "store" (`false`): the subsystem's
single error class carries only a message, and the network error built
from the external exception text `Unknown store 'alpha'` IS the very value
of the store-level unknown-store error, so the two kinds are not
distinguishable by the caller. -/
theorem embedding_error_not_distinguishable :
    ¬ ∃ classify : RAGError → Bool,
        (∀ detail, classify (ollamaNetworkError detail) = true) ∧
        (∀ name, classify (unknownStoreError name) = false) := by
  rintro ⟨classify, hemb, hstore⟩
  have h₁ := hemb "Unknown store 'alpha'"
  have h₂ := hstore "alpha"
  rw [show ollamaNetworkError "Unknown store 'alpha'" = unknownStoreError "alpha"
    from by decide] at h₁
  rw [h₁] at h₂
  exact absurd h₂ (by simp)

/-- Claim C3 (amended): every error of the subsystem is the single type
`RAGError` carrying only its message string, so error kinds are
distinguishable only by message text: the fixed-message embedding error
does differ from the store-level unknown-store and dimensionality-mismatch
errors, but a network-failure embedding error carries the external
exception's text and can coincide exactly with a store-level error value. -/
theorem rag_error_single_type :
    (∀ e : RAGError, e = ⟨e.msg⟩) ∧
    ollamaMissingEmbeddingError ≠ unknownStoreError "alpha" ∧
    ollamaMissingEmbeddingError ≠ dimensionalityMismatchError ∧
    ollamaNetworkError "Unknown store 'alpha'" = unknownStoreError "alpha" :=
  ⟨fun _ => rfl, by decide, by decide, by decide⟩

end RagStore
